import Mathlib

set_option autoImplicit false
set_option linter.unusedVariables false

/-!
Verification development for the MTG assistant repository: a shallow
embedding of the agent tool-use loop of discord_bot.py, of the rules
chunker and database build of rules_ingestion.py, and of the rules-search
tool of mtg_mcp.py, together with theorems settling the specification's
claims about these components.
-/

/-- Python exception values observable by the except clauses in the source:
httpx.HTTPStatusError carries the response status code (and its str()
rendering), every other Exception is represented by its message string. -/
inductive PyExc
  | httpStatusError (code : Nat) (msg : String)
  | generic (msg : String)
deriving DecidableEq

/-- Rendering str(e) of a caught exception. -/
def PyExc.toMsg : PyExc → String
  | .httpStatusError _ m => m
  | .generic m => m

/-- Whitespace test agreeing with Python's regex class \s and str.strip on
the ASCII range (Python additionally accepts rarer Unicode whitespace;
the rules corpus and all inputs considered here are in the ASCII range). -/
def pyIsSpace (c : Char) : Bool :=
  c = ' ' || c = '\t' || c = '\n' || c = '\r' || c = '\x0b' || c = '\x0c'

/-- Python str.strip() on a character list. -/
def pyStripL (l : List Char) : List Char :=
  ((l.dropWhile pyIsSpace).reverse.dropWhile pyIsSpace).reverse

/-- Python str.strip() on strings. -/
def pyStrip (s : String) : String := String.mk (pyStripL s.data)

/-- Python str.lower() on the ASCII range. -/
def pyLower (s : String) : String := String.mk (s.data.map Char.toLower)

namespace DiscordBot

/-- A card object of the Scryfall search response, holding the fields that
scryfall_search_cards reads (each read with dict.get and a default). -/
structure Card where
  name : Option String
  mana_cost : Option String
  type_line : Option String
deriving DecidableEq

/-- The decoded JSON body of a successful cards/search response. -/
structure SearchData where
  data : List Card
  total_cards : Option Nat
deriving DecidableEq

/-- Embedding of scryfall_search_cards (discord_bot.py). The HTTP request
and JSON decoding inside the try block are abstracted into the outcome
argument (ok carries the decoded body, error a raised exception); the
result formatting and the two except clauses are translated from the
source. -/
def scryfall_search_cards (outcome : Except PyExc SearchData)
    (query : String) (limit : Nat) : String :=
  match outcome with
  | .error (.httpStatusError code _) => "Search error: " ++ toString code
  | .error (.generic m) => "Error: " ++ m
  | .ok d =>
    let cards := d.data.take limit
    let total := d.total_cards.getD cards.length
    if cards.isEmpty then
      "No cards found matching that search."
    else
      let lines := ("Found " ++ toString total ++ " cards (showing "
          ++ toString cards.length ++ "):")
        :: cards.map (fun c =>
          "**" ++ c.name.getD "Unknown" ++ "** " ++ c.mana_cost.getD ""
            ++ " - " ++ c.type_line.getD "")
      String.intercalate "\n" lines

/-- Embedding of scryfall_get_card: the try-block body is abstracted into
the outcome argument, the two except clauses are from the source. -/
def scryfall_get_card (outcome : Except PyExc String) (name : String) : String :=
  match outcome with
  | .ok s => s
  | .error (.httpStatusError _ _) => "Could not find card: " ++ name
  | .error (.generic m) => "Error: " ++ m

/-- The KEYWORDS list of scryfall_get_rulings, verbatim from the source
(including its duplicated entry for annihilator). -/
def KEYWORDS : List String := [
  "myriad", "mobilize", "cascade", "annihilator", "afflict", "aftermath",
  "amass", "amplify", "annihilator", "ascend", "aura swap", "awaken",
  "backup", "banding", "bargain", "battalion", "battle cry", "bestow",
  "blitz", "bloodrush", "bloodthirst", "boast", "bushido", "buyback",
  "casualty", "celebration", "champion", "changeling", "channel", "choose a background",
  "cipher", "clash", "cleave", "companion", "compleated", "connive",
  "conspire", "convoke", "corrupted", "council's dilemma", "coup de grâce",
  "craft", "crew", "cumulative upkeep", "cycling", "dash", "daybound",
  "deathtouch", "decayed", "defender", "delve", "detain", "devoid",
  "devour", "disguise", "disturb", "doctor's companion", "domain",
  "double strike", "dredge", "echo", "embalm", "emerge", "eminence",
  "enchant", "encore", "enlist", "enrage", "entwine", "escalate",
  "escape", "eternalize", "evoke", "evolve", "exalted", "excess damage",
  "exploit", "explore", "extort", "fabricate", "fading", "fateful hour",
  "fathomless descent", "fear", "ferocious", "fight", "first strike",
  "flanking", "flash", "flashback", "flying", "food", "for mirrodin!",
  "forecast", "foretell", "formidable", "friends forever", "fuse",
  "goad", "graft", "gravestorm", "graveyard hate", "haste", "haunt",
  "hellbent", "heroic", "hexproof", "hidden agenda", "hideaway",
  "horsemanship", "improvise", "incubate", "indestructible", "infect",
  "initiative", "inspired", "intensity", "intimidate", "investigate",
  "jump-start", "kicker", "landfall", "landwalk", "learn", "level up",
  "lifelink", "living weapon", "madness", "magecraft", "manifest",
  "meld", "melee", "menace", "mentor", "metalcraft", "mill", "miracle",
  "modular", "monstrosity", "morbid", "morph", "mutate", "ninjutsu",
  "offering", "offspring", "outlast", "overload", "pack tactics", "paradox",
  "parley", "partner", "persist", "phasing", "pilot", "plainscycling",
  "plot", "populate", "proliferate", "protection", "provoke", "prowess",
  "prowl", "radiance", "raid", "rampage", "ravenous", "reach", "rebound",
  "reconfigure", "recover", "reinforce", "renown", "replicate", "retrace",
  "revolt", "riot", "saddle", "scavenge", "scry", "shadow", "shroud",
  "skulk", "soulbond", "soulshift", "spectacle", "spell mastery",
  "splice", "split second", "squad", "storm", "strive", "sunburst",
  "support", "surge", "surveil", "suspend", "swampcycling", "threshold",
  "totem armor", "toxic", "trample", "training", "transfigure", "transform",
  "transmute", "treasure", "tribute", "undaunted", "undying", "unearth",
  "unleash", "vanishing", "vigilance", "ward", "wither"]

/-- Embedding of scryfall_get_rulings: the try-block body is abstracted
into the outcome argument; the keyword detection and the two except
clauses are from the source. -/
def scryfall_get_rulings (outcome : Except PyExc String) (card_name : String) : String :=
  let search_term := pyLower (pyStrip card_name)
  let is_keyword := KEYWORDS.contains search_term
  match outcome with
  | .ok s => s
  | .error (.httpStatusError _ _) =>
    if is_keyword then
      "Could not find rulings for the keyword '" ++ search_term
        ++ "'. Try searching for a specific card with this ability."
    else
      "Could not find card: " ++ card_name
  | .error (.generic m) => "Error getting rulings: " ++ m

/-- Embedding of spellbook_search_combos: abstracted body, catch-all except
clause from the source. -/
def spellbook_search_combos (outcome : Except PyExc String) (query : String)
    (color_identity : Option String) (limit : Nat) : String :=
  match outcome with
  | .ok s => s
  | .error e => "Error searching combos: " ++ e.toMsg

/-- Embedding of spellbook_find_combos_for_cards: builds the combined query
and delegates to spellbook_search_combos, as the source does. -/
def spellbook_find_combos_for_cards (outcome : Except PyExc String)
    (cards : List String) (limit : Nat) : String :=
  let card_queries := cards.map (fun card => "card:\"" ++ card ++ "\"")
  let combined_query := String.intercalate " OR " card_queries
  spellbook_search_combos outcome combined_query none limit

/-- Embedding of spellbook_find_combos_in_decklist: abstracted body, except
clauses from the source. -/
def spellbook_find_combos_in_decklist (outcome : Except PyExc String)
    (decklist_url decklist_text : Option String) (limit : Nat) : String :=
  match outcome with
  | .ok s => s
  | .error (.httpStatusError code _) => "Error analyzing decklist: " ++ toString code
  | .error (.generic m) => "Error: " ++ m

/-- Embedding of spellbook_estimate_bracket: abstracted body, except
clauses from the source. -/
def spellbook_estimate_bracket (outcome : Except PyExc String)
    (decklist_url decklist_text : Option String) : String :=
  match outcome with
  | .ok s => s
  | .error (.httpStatusError code _) => "Error estimating bracket: " ++ toString code
  | .error (.generic m) => "Error: " ++ m

/-- Metadata of one stored chunk as read back from a ChromaDB query. -/
structure RulesMeta where
  rule_number : Option String
deriving DecidableEq

/-- First row of a ChromaDB query result: documents[0] and metadatas[0]
(the query always carries exactly one query text). -/
structure QueryData where
  documents : List String
  metadatas : List RulesMeta
deriving DecidableEq

/-- Embedding of mtg_rules_search (discord_bot.py). The collection handle
obtained from get_rules_collection_async and the ChromaDB query outcome are
environment arguments; the none branch, the formatting and the except
clause are from the source. -/
def mtg_rules_search (collection : Option Nat)
    (queryOutcome : Except PyExc QueryData) (query : String) (num_results : Nat) : String :=
  match collection with
  | none => "Rules database not available. Run rules_ingestion.py to set it up."
  | some _ =>
    match queryOutcome with
    | .error e => "Error searching rules: " ++ e.toMsg
    | .ok res =>
      if res.documents.isEmpty then
        "No relevant rules found."
      else
        String.intercalate "\n\n" ((res.documents.zip res.metadatas).map (fun p =>
          let rule_num := p.2.rule_number.getD "?"
          let text := if p.1.length > 500 then p.1.take 500 ++ "..." else p.1
          "**" ++ rule_num ++ "**: " ++ text))

/-- A tool invocation requested by the model. Calls to the eight registered
tools are represented with schema-conforming arguments (the model API
validates tool input against the declared input_schema before the loop sees
it, and Python binds them as keyword arguments); unregistered covers a
request whose tool name lies outside the registry. -/
inductive ToolCall
  | searchCards (query : String) (limit : Nat)
  | getCard (name : String)
  | getRulings (card_name : String)
  | searchCombos (query : String) (color_identity : Option String) (limit : Nat)
  | combosForCards (cards : List String) (limit : Nat)
  | combosInDecklist (decklist_url decklist_text : Option String) (limit : Nat)
  | estimateBracket (decklist_url decklist_text : Option String)
  | rulesSearch (query : String) (num_results : Nat)
  | unregistered (tool_name : String) (input : List (String × String))
deriving DecidableEq

/-- The tool name carried by a request (block.name in the source). -/
def ToolCall.name : ToolCall → String
  | .searchCards .. => "scryfall_search_cards"
  | .getCard .. => "scryfall_get_card"
  | .getRulings .. => "scryfall_get_rulings"
  | .searchCombos .. => "spellbook_search_combos"
  | .combosForCards .. => "spellbook_find_combos_for_cards"
  | .combosInDecklist .. => "spellbook_find_combos_in_decklist"
  | .estimateBracket .. => "spellbook_estimate_bracket"
  | .rulesSearch .. => "mtg_rules_search"
  | .unregistered n _ => n

/-- Keys of the TOOL_FUNCTIONS dispatch table of discord_bot.py. -/
def TOOL_FUNCTIONS : List String :=
  ["scryfall_search_cards", "scryfall_get_card", "scryfall_get_rulings",
   "spellbook_search_combos", "spellbook_find_combos_for_cards",
   "spellbook_find_combos_in_decklist", "spellbook_estimate_bracket",
   "mtg_rules_search"]

/-- The upstream world for one tool invocation: the decoded search payload
for scryfall_search_cards, an abstracted try-block outcome for the handlers
whose bodies no claim inspects, and the collection handle and query outcome
for mtg_rules_search. -/
structure NetOutcome where
  search : Except PyExc SearchData
  body : Except PyExc String
  rulesDb : Option Nat
  rulesQuery : Except PyExc QueryData

/-- Dispatch of a registered call to its handler (func(**tool_input) in the
source). The unregistered case is unreachable under the registry-membership
test of executeToolContent for the eight typed constructors. -/
def applyTool (out : NetOutcome) : ToolCall → String
  | .searchCards q l => scryfall_search_cards out.search q l
  | .getCard n => scryfall_get_card out.body n
  | .getRulings cn => scryfall_get_rulings out.body cn
  | .searchCombos q ci l => spellbook_search_combos out.body q ci l
  | .combosForCards cs l => spellbook_find_combos_for_cards out.body cs l
  | .combosInDecklist u t l => spellbook_find_combos_in_decklist out.body u t l
  | .estimateBracket u t => spellbook_estimate_bracket out.body u t
  | .rulesSearch q n => mtg_rules_search out.rulesDb out.rulesQuery q n
  | .unregistered n _ => "Unknown tool: " ++ n

/-- One dispatch from the loop body of ask_claude: the registry lookup and
the unknown-tool fallback. -/
def executeToolContent (out : NetOutcome) (call : ToolCall) : String :=
  if TOOL_FUNCTIONS.contains call.name then applyTool out call
  else "Unknown tool: " ++ call.name

/-- A tool_result content block as ask_claude builds it: a Python dict
with exactly these three keys. -/
def mkToolResult (tool_use_id content : String) : List (String × String) :=
  [("type", "tool_result"), ("tool_use_id", tool_use_id), ("content", content)]

/-- Python dict lookup on the association-list representation of a dict. -/
def dictGet (d : List (String × String)) (k : String) : Option String :=
  (d.find? (fun p => p.1 == k)).map (fun p => p.2)

/-- A content block of a model response. Only text blocks carry a text
attribute; thinking stands for any block without one. -/
inductive ContentBlock
  | toolUse (id : String) (call : ToolCall)
  | text (s : String)
  | thinking (s : String)
deriving DecidableEq

/-- The hasattr(block, "text") test of the source. -/
def ContentBlock.hasText : ContentBlock → Bool
  | .text _ => true
  | _ => false

/-- The per-turn tool execution loop of ask_claude: one tool_result per
tool_use block, in request order; env k is the upstream world of the k-th
tool call of the turn. -/
def executeTurnAux (env : Nat → NetOutcome) (k : Nat) :
    List ContentBlock → List (List (String × String))
  | [] => []
  | .toolUse id call :: rest =>
    mkToolResult id (executeToolContent (env k) call) :: executeTurnAux env (k+1) rest
  | .text _ :: rest => executeTurnAux env k rest
  | .thinking _ :: rest => executeTurnAux env k rest

/-- A model response: its stop reason and content blocks. -/
structure Response where
  stop_reason : String
  content : List ContentBlock
deriving DecidableEq

/-- A transcript message as ask_claude appends them. -/
inductive Message
  | user (text : String)
  | assistant (content : List ContentBlock)
  | toolResults (results : List (List (String × String)))
deriving DecidableEq

/-- Extraction of the final text in the non-tool_use branch: the first
block with a text attribute, else the fixed fallback string. -/
def extractText : List ContentBlock → String
  | [] => "I couldn't generate a response."
  | .text s :: _ => s
  | .toolUse _ _ :: rest => extractText rest
  | .thinking _ :: rest => extractText rest

/-- The ask_claude loop. fuel counts the remaining iterations of the
bounded for-loop (max_iterations at the top call); iter indexes the current
iteration for the tool environment; oracle stands for the reasoning-model
call claude_client.messages.create on the running transcript. -/
def askClaudeLoop (oracle : List Message → Response) (env : Nat → Nat → NetOutcome)
    (iter : Nat) : Nat → List Message → String
  | 0, _ => "I got stuck in a loop trying to answer. Please try rephrasing your question."
  | fuel+1, messages =>
    let response := oracle messages
    if response.stop_reason = "tool_use" then
      let tool_results := executeTurnAux (env iter) 0 response.content
      askClaudeLoop oracle env (iter+1) fuel
        (messages ++ [Message.assistant response.content, Message.toolResults tool_results])
    else
      extractText response.content

/-- The safety limit of the loop (discord_bot.py, max_iterations = 12). -/
def max_iterations : Nat := 12

/-- Embedding of ask_claude. -/
def ask_claude (oracle : List Message → Response) (env : Nat → Nat → NetOutcome)
    (user_message : String) : String :=
  askClaudeLoop oracle env 0 max_iterations [Message.user user_message]

/-- Instrumented twin of askClaudeLoop that counts reasoning-model calls. -/
def askClaudeLoopCalls (oracle : List Message → Response) (env : Nat → Nat → NetOutcome)
    (iter : Nat) : Nat → List Message → Nat
  | 0, _ => 0
  | fuel+1, messages =>
    let response := oracle messages
    if response.stop_reason = "tool_use" then
      let tool_results := executeTurnAux (env iter) 0 response.content
      1 + askClaudeLoopCalls oracle env (iter+1) fuel
        (messages ++ [Message.assistant response.content, Message.toolResults tool_results])
    else 1

/-- Number of reasoning-model calls one ask_claude invocation makes. -/
def ask_claude_model_calls (oracle : List Message → Response) (env : Nat → Nat → NetOutcome)
    (user_message : String) : Nat :=
  askClaudeLoopCalls oracle env 0 max_iterations [Message.user user_message]

end DiscordBot

namespace MtgMcp

/-- Lazy loader of the MCP server (get_rules_collection in mtg_mcp.py), as
a function of the cached module state and of the filesystem and ChromaDB
environment: returns the collection the caller sees and the new cached
state. loadResult is the outcome of the try block (client construction and
get_collection); an exception it raises is caught by the except clause,
which returns None. -/
def get_rules_collection (cache : Option Nat) (pathExists : Bool)
    (loadResult : Except PyExc Nat) : Option Nat × Option Nat :=
  match cache with
  | some c => (some c, some c)
  | none =>
    if !pathExists then (none, none)
    else
      match loadResult with
      | .ok c => (some c, some c)
      | .error _ => (none, none)

/-- First row of a ChromaDB query result in the MCP server, including the
distances the relevance indicator reads. The source compares float
distances against 0.5 and 1.0; distances are modelled as exact rationals. -/
structure McpQueryData where
  documents : List String
  metadatas : List DiscordBot.RulesMeta
  distances : List Rat
deriving DecidableEq

/-- Embedding of mtg_rules_search (mtg_mcp.py). The collection obtained
from get_rules_collection and the query outcome are environment arguments;
the database-not-found message, the formatting and the except clause are
from the source. -/
def mtg_rules_search (collection : Option Nat)
    (queryOutcome : Except PyExc McpQueryData) (query : String) (num_results : Nat) : String :=
  match collection with
  | none =>
    "**Rules database not found.**\n\nTo use this tool, you need to run the ingestion script first:\n```\npython rules_ingestion.py\n```\nThis will download the Comprehensive Rules and create the search index."
  | some _ =>
    match queryOutcome with
    | .error e => "**Error searching rules:** " ++ e.toMsg
    | .ok res =>
      if res.documents.isEmpty then
        "**No relevant rules found for:** " ++ query ++ "\n\nTry rephrasing your question."
      else
        let lines := ("**Relevant rules for:** " ++ query ++ "\n")
          :: ((res.documents.zip (res.metadatas.zip res.distances)).flatMap (fun t =>
            let rule_number := t.2.1.rule_number.getD "Unknown"
            let relevance := if t.2.2 < (1/2 : Rat) then "●●●"
              else if t.2.2 < (1 : Rat) then "●●○" else "●○○"
            ["### " ++ rule_number ++ " " ++ relevance, t.1 ++ "\n"]))
          ++ ["---", "*Relevance: ●●● = High, ●●○ = Medium, ●○○ = Lower*"]
        String.intercalate "\n" lines

end MtgMcp

namespace SingleFlight

/-- Environment of the discord bot's lazy rules-database load: whether
RULES_DB_PATH exists, and what _load_rules_collection_sync yields (the sync
loader catches its own exceptions and yields None on any failure, so its
outcome is an Option; on success it assigns the collection to the module
global). -/
structure Env where
  pathExists : Bool
  loadResult : Option Nat

/-- Program counter of one task executing get_rules_collection_async
(discord_bot.py). Code between two awaits runs atomically under the
cooperative asyncio scheduler; the executor thread's write of
_rules_collection is the separate inLoad to loadDone step, and the resumed
coroutine's read, finally clause and return are the loadDone step. -/
inductive TaskPc
  | start
  | wait
  | inLoad
  | loadDone
  | done (r : Option Nat)
deriving DecidableEq

/-- Process state: the module globals _rules_loading and _rules_collection,
the program counters of the concurrent callers, and a count of load
attempts started so far. -/
structure GState where
  loading : Bool
  cache : Option Nat
  tasks : List TaskPc
  attempts : Nat
deriving DecidableEq

/-- Initial state: globals cleared, n concurrent first-time callers. -/
def initState (n : Nat) : GState :=
  ⟨false, none, List.replicate n .start, 0⟩

/-- One scheduler step of one task, following the branches of
get_rules_collection_async in order: cached-return, missing-path return,
waiting on an in-flight load, starting the load, the two waiter steps, the
executor completing, and the finally clause with the loader's return. -/
inductive Step (env : Env) : GState → GState → Prop
  | startCached (s : GState) (i : Nat) (c : Nat) :
      s.tasks[i]? = some .start → s.cache = some c →
      Step env s { s with tasks := s.tasks.set i (.done (some c)) }
  | startNoPath (s : GState) (i : Nat) :
      s.tasks[i]? = some .start → s.cache = none → env.pathExists = false →
      Step env s { s with tasks := s.tasks.set i (.done none) }
  | startWait (s : GState) (i : Nat) :
      s.tasks[i]? = some .start → s.cache = none → env.pathExists = true →
      s.loading = true →
      Step env s { s with tasks := s.tasks.set i .wait }
  | startLoad (s : GState) (i : Nat) :
      s.tasks[i]? = some .start → s.cache = none → env.pathExists = true →
      s.loading = false →
      Step env s { s with loading := true, tasks := s.tasks.set i .inLoad,
                          attempts := s.attempts + 1 }
  | waitSpin (s : GState) (i : Nat) :
      s.tasks[i]? = some .wait → s.loading = true → s.cache = none →
      Step env s s
  | waitDone (s : GState) (i : Nat) :
      s.tasks[i]? = some .wait → (s.loading = false ∨ s.cache ≠ none) →
      Step env s { s with tasks := s.tasks.set i (.done s.cache) }
  | loadComplete (s : GState) (i : Nat) :
      s.tasks[i]? = some .inLoad →
      Step env s { s with cache := (match env.loadResult with
                                    | some c => some c
                                    | none => s.cache),
                          tasks := s.tasks.set i .loadDone }
  | finallyStep (s : GState) (i : Nat) :
      s.tasks[i]? = some .loadDone →
      Step env s { s with loading := false, tasks := s.tasks.set i (.done s.cache) }

/-- States reachable from an initial state by scheduler steps. -/
inductive Reach (env : Env) : GState → Prop
  | init (n : Nat) : Reach env (initState n)
  | step (s s' : GState) : Reach env s → Step env s s' → Reach env s'

/-- A task occupies the load region while the single underlying load it
started is pending. -/
def inRegion : TaskPc → Bool
  | .inLoad => true
  | .loadDone => true
  | _ => false

/-- The one outcome every caller of the accessor observes under a fixed
environment. -/
def expected (env : Env) : Option Nat :=
  if env.pathExists then env.loadResult else none

end SingleFlight


namespace RulesIngestion

/-- Matcher for the rule-number marker of rules_ingestion.py's rule
pattern: three digits, a dot, one or more digits and an optional lowercase
letter, at the head of the input, with a whitespace character following
(both the main pattern and its lookahead demand whitespace right after the
marker, which resolves the optional letter's backtracking). Returns the
marker characters and the rest beginning at that whitespace. -/
def matchMarkerWs : List Char → Option (List Char × List Char)
  | d1 :: d2 :: d3 :: c4 :: rest =>
    if d1.isDigit && d2.isDigit && d3.isDigit && c4 == '.' then
      let digits := rest.takeWhile Char.isDigit
      let rest2 := rest.dropWhile Char.isDigit
      if digits.isEmpty then none
      else
        match rest2 with
        | [] => none
        | c :: tail =>
          if c.isLower && (match tail with | c2 :: _ => pyIsSpace c2 | [] => false) then
            some (d1 :: d2 :: d3 :: c4 :: (digits ++ [c]), tail)
          else if pyIsSpace c then
            some (d1 :: d2 :: d3 :: c4 :: digits, c :: tail)
          else none
    else none
  | _ => none

/-- The lookahead of the rule pattern: a rule marker followed by
whitespace. -/
def isRuleBoundary (l : List Char) : Bool :=
  (matchMarkerWs l).isSome

/-- Lazy capture of the two big patterns: consumes characters until the
boundary test succeeds at a line start (the MULTILINE anchor) or the input
ends, returning the consumed characters and the rest. -/
def scanUntil (boundary : List Char → Bool) : List Char → Bool → List Char × List Char
  | [], _ => ([], [])
  | c :: rest, lineStart =>
    if lineStart && boundary (c :: rest) then ([], c :: rest)
    else
      let p := scanUntil boundary rest (c == '\n')
      (c :: p.1, p.2)

/-- Fueled scanner equivalent to rule_pattern.finditer: at each line start
it tries the marker; on success the greedy whitespace run after the marker
is consumed, and the lazy nonempty body runs to the next line-start marker
or the end of input. A marker whose whitespace run reaches the end of
input matches only when the run can be split (at least two whitespace
characters), leaving the final whitespace character as the body. The fuel
content.length + 1 is always sufficient, as every recursive call consumes
at least one character. -/
def findRulesF : Nat → List Char → Bool → List (String × String)
  | 0, _, _ => []
  | _+1, [], _ => []
  | fuel+1, c :: rest, lineStart =>
    if lineStart then
      match matchMarkerWs (c :: rest) with
      | some (marker, afterMarker) =>
        let afterWs := afterMarker.dropWhile pyIsSpace
        match afterWs with
        | [] =>
          let wsRun := afterMarker.takeWhile pyIsSpace
          if 2 ≤ wsRun.length then
            [(String.mk marker, String.mk (wsRun.drop (wsRun.length - 1)))]
          else []
        | a :: aw =>
          let p := scanUntil isRuleBoundary aw (a == '\n')
          (String.mk marker, String.mk (a :: p.1)) :: findRulesF fuel p.2 true
      | none => findRulesF fuel rest (c == '\n')
    else findRulesF fuel rest (c == '\n')

/-- Matcher for header_pattern at the head of the input: three digits, a
dot, greedy whitespace, an uppercase letter and at least one further
non-newline character (the greedy title). Returns the section number, the
raw title group, and the rest beginning at the newline ending the title. -/
def matchHeader : List Char → Option (String × String × List Char)
  | d1 :: d2 :: d3 :: c4 :: rest =>
    if d1.isDigit && d2.isDigit && d3.isDigit && c4 == '.' then
      let ws := rest.takeWhile pyIsSpace
      let rest2 := rest.dropWhile pyIsSpace
      if ws.isEmpty then none
      else
        match rest2 with
        | u :: rest3 =>
          if u.isUpper then
            let titleTail := rest3.takeWhile (fun c => !(c == '\n'))
            let rem := rest3.dropWhile (fun c => !(c == '\n'))
            if titleTail.isEmpty then none
            else some (String.mk [d1, d2, d3], String.mk (u :: titleTail), rem)
          else none
        | [] => none
    else none
  | _ => none

/-- Fueled scanner equivalent to header_pattern.finditer. -/
def findHeadersF : Nat → List Char → Bool → List (String × String)
  | 0, _, _ => []
  | _+1, [], _ => []
  | fuel+1, c :: rest, lineStart =>
    if lineStart then
      match matchHeader (c :: rest) with
      | some (num, title, rem) => (num, title) :: findHeadersF fuel rem false
      | none => findHeadersF fuel rest (c == '\n')
    else findHeadersF fuel rest (c == '\n')

/-- Character class of the glossary term group: ASCII letters, whitespace
(which includes the newline), comma, apostrophe and hyphen. -/
def glossaryTermClass (c : Char) : Bool :=
  c.isUpper || c.isLower || pyIsSpace c || c == ',' || c == '\'' || c == '-'

/-- Splits r as pre, a newline, and a newline-free post (around the last
newline of r), when r contains a newline at all. -/
def splitLastNl (r : List Char) : Option (List Char × List Char) :=
  let rev := r.reverse
  let postRev := rev.takeWhile (fun c => !(c == '\n'))
  let preRev := rev.dropWhile (fun c => !(c == '\n'))
  match preRev with
  | '\n' :: pr => some (pr.reverse, postRev.reverse)
  | _ => none

/-- Matcher for the glossary term group at a line start: an uppercase
letter, then a greedy run of term-class characters which backtracks so the
run ends right before a newline. The latest newline of the run is chosen,
except when it is the last character of the input (then the definition
group would be empty and the engine backtracks once more to the previous
newline). Returns the raw term group and the nonempty region after the
consumed newline, split into its first character and the remainder. -/
def matchGlossaryEntryHead : List Char → Option (List Char × Char × List Char)
  | [] => none
  | c :: tail =>
    if c.isUpper then
      let run := tail.takeWhile glossaryTermClass
      let afterRun := tail.dropWhile glossaryTermClass
      match splitLastNl run with
      | none => none
      | some (pre, post) =>
        if pre.isEmpty then none
        else
          match post ++ afterRun with
          | r0 :: rr => some (c :: pre, r0, rr)
          | [] =>
            match splitLastNl pre with
            | some (pre2, post2) =>
              if pre2.isEmpty then none
              else
                match post2 with
                | [] => some (c :: pre2, '\n', [])
                | p0 :: pp => some (c :: pre2, p0, pp ++ ['\n'])
            | none => none
    else none

/-- The lookahead of glossary_pattern at a line start: an uppercase letter
whose following term-class run contains a newline at offset at least one
(so a nonempty term part fits before it). -/
def glossaryBoundary : List Char → Bool
  | [] => false
  | _c :: tail =>
    (_c).isUpper && (((tail.takeWhile glossaryTermClass).drop 1).contains '\n')

/-- Fueled scanner equivalent to glossary_pattern.finditer on the glossary
region. -/
def findGlossaryF : Nat → List Char → Bool → List (String × String)
  | 0, _, _ => []
  | _+1, [], _ => []
  | fuel+1, c :: rest, lineStart =>
    if lineStart then
      match matchGlossaryEntryHead (c :: rest) with
      | some (term, r0, rr) =>
        let p := scanUntil glossaryBoundary rr (r0 == '\n')
        (String.mk term, String.mk (r0 :: p.1)) :: findGlossaryF fuel p.2 true
      | none => findGlossaryF fuel rest (c == '\n')
    else findGlossaryF fuel rest (c == '\n')

/-- content.find("Glossary"): the suffix of the input starting at the
first occurrence of the word, if any. -/
def findGlossaryStart : List Char → Option (List Char)
  | [] => none
  | c :: rest =>
    if ("Glossary".data).isPrefixOf (c :: rest) then some (c :: rest)
    else findGlossaryStart rest

/-- Collapsing of whitespace runs to single spaces: re.sub of one or more
whitespace characters with one space. -/
def collapseWsAux : List Char → Bool → List Char
  | [], _ => []
  | c :: rest, inRun =>
    if pyIsSpace c then
      if inRun then collapseWsAux rest true
      else ' ' :: collapseWsAux rest true
    else c :: collapseWsAux rest false

/-- re.sub of whitespace runs with single spaces, on strings. -/
def collapseWs (s : String) : String := String.mk (collapseWsAux s.data false)

/-- One chunk dict produced by parse_rules. Body chunks carry a
section_name key (possibly holding the empty string); glossary chunks
have no section_name key at all, modelled as none. -/
structure Chunk where
  rule_number : String
  text : String
  «section» : String
  section_name : Option String
deriving DecidableEq

/-- Lookup in the section_headers dict: successive finditer matches
overwrite earlier bindings of the same key, so the last pair wins. -/
def sectionHeadersGet (headers : List (String × String)) (k : String) : Option String :=
  (headers.reverse.find? (fun p => p.1 == k)).map (fun p => p.2)

/-- The body of the first chunk-building loop of parse_rules over the
matched rule entries: strip and collapse the captured text, skip entries
shorter than 20 characters, prepend the section context when the section
has a nonempty header title. -/
def buildRuleChunks (headers : List (String × String)) : List (String × String) → List Chunk
  | [] => []
  | (rule_number, raw) :: rest =>
    let rule_text := collapseWs (pyStrip raw)
    let sec := String.mk (rule_number.data.takeWhile (fun c => !(c == '.')))
    if rule_text.length < 20 then buildRuleChunks headers rest
    else
      let section_name := (sectionHeadersGet headers sec).getD ""
      let contextualized_text :=
        if section_name ≠ "" then section_name ++ " (" ++ sec ++ "): " ++ rule_text
        else rule_text
      ⟨rule_number, contextualized_text, sec, some section_name⟩ :: buildRuleChunks headers rest

/-- The chunk one surviving rule entry produces. -/
def mkRuleChunk (headers : List (String × String)) (e : String × String) : Chunk :=
  let rule_text := collapseWs (pyStrip e.2)
  let sec := String.mk (e.1.data.takeWhile (fun c => !(c == '.')))
  let section_name := (sectionHeadersGet headers sec).getD ""
  ⟨e.1,
    if section_name ≠ "" then section_name ++ " (" ++ sec ++ "): " ++ rule_text
    else rule_text,
    sec, some section_name⟩

/-- The body of the glossary chunk-building loop: strip the term, strip
and collapse the definition, skip short definitions and the two non-entry
headings. -/
def buildGlossaryChunks : List (String × String) → List Chunk
  | [] => []
  | (termRaw, defRaw) :: rest =>
    let term := pyStrip termRaw
    let definition := collapseWs (pyStrip defRaw)
    if definition.length < 20 || term == "Glossary" || term == "Credits" then
      buildGlossaryChunks rest
    else
      ⟨"glossary:" ++ term, term ++ ": " ++ definition, "glossary", none⟩
        :: buildGlossaryChunks rest

/-- The chunk one surviving glossary entry produces. -/
def mkGlossaryChunk (e : String × String) : Chunk :=
  let term := pyStrip e.1
  let definition := collapseWs (pyStrip e.2)
  ⟨"glossary:" ++ term, term ++ ": " ++ definition, "glossary", none⟩

/-- The rule entries rule_pattern.finditer yields on the content:
pairs of rule number and raw captured text. -/
def ruleEntries (content : String) : List (String × String) :=
  findRulesF (content.data.length + 1) content.data true

/-- The section_headers mapping in match order, titles stripped as the
source strips them before insertion. -/
def sectionHeadersOf (content : String) : List (String × String) :=
  (findHeadersF (content.data.length + 1) content.data true).map (fun p => (p.1, pyStrip p.2))

/-- The glossary entries matched on the suffix starting at the first
occurrence of "Glossary". -/
def glossaryEntries (content : String) : List (String × String) :=
  match findGlossaryStart content.data with
  | none => []
  | some g => findGlossaryF (g.length + 1) g true

/-- Embedding of parse_rules: body chunks from the rule entries followed
by the glossary chunks. -/
def parse_rules (content : String) : List Chunk :=
  buildRuleChunks (sectionHeadersOf content) (ruleEntries content)
    ++ buildGlossaryChunks (glossaryEntries content)

/-- The section title the chunk loop looks up for a section key (empty
when no header with that key was found). -/
def sectionTitle (content : String) (sec : String) : String :=
  (sectionHeadersGet (sectionHeadersOf content) sec).getD ""

/-- The sequence of observable contents of the named collection while
create_database runs, given the documents to insert and the initial
contents (none when no collection of that name exists): the initial state,
the state after delete_collection (caught when nothing exists), the empty
collection after create_collection, and the state after each batched add
of 100 documents. -/
def create_database_states (docs : List String) (start : Option (List String)) :
    List (Option (List String)) :=
  start :: none :: some [] ::
    (List.range ((docs.length + 99) / 100)).map (fun i => some (docs.take (100 * (i + 1))))

end RulesIngestion

namespace DiscordBot

/-- The tool_use ids of a model turn, in request order. -/
def toolUseIds : List ContentBlock → List String
  | [] => []
  | .toolUse id _ :: rest => id :: toolUseIds rest
  | .text _ :: rest => toolUseIds rest
  | .thinking _ :: rest => toolUseIds rest

/-- A quiescent concrete environment of upstream outcomes, used by the
concrete instantiations below. -/
def envDefault : NetOutcome :=
  ⟨Except.ok ⟨[], none⟩, Except.ok "", none, Except.ok ⟨[], []⟩⟩

/-- A model turn requesting three card searches. -/
def blocksC2 : List ContentBlock :=
  [.toolUse "toolu_1" (.searchCards "c:red" 5),
   .toolUse "toolu_2" (.searchCards "c:blue" 5),
   .toolUse "toolu_3" (.searchCards "c:green" 5)]

/-- An environment where the second tool call's handler body raises a
generic exception and the other two calls succeed with one card. -/
def envC2 : Nat → NetOutcome := fun k =>
  if k == 1 then
    { envDefault with search := Except.error (PyExc.generic "Connection timeout") }
  else
    { envDefault with
      search := Except.ok ⟨[⟨some "Lightning Bolt", none, some "Instant"⟩], some 1⟩ }

end DiscordBot

namespace RulesIngestion

/-- The documents visible in a collection state (none holds no documents). -/
def stateDocs : Option (List String) → List String
  | none => []
  | some l => l

end RulesIngestion

namespace SingleFlight

/-- The inductive invariant of the lazy-load machine. -/
structure Inv (env : Env) (s : GState) : Prop where
  regionLoading : s.loading = false → ∀ (i : Nat) (t : TaskPc), s.tasks[i]? = some t →
    inRegion t = false
  regionUnique : ∀ (i j : Nat) (ti tj : TaskPc), s.tasks[i]? = some ti →
    s.tasks[j]? = some tj → inRegion ti = true → inRegion tj = true → i = j
  cacheInv : s.cache = none ∨ s.cache = env.loadResult
  loadDoneCache : TaskPc.loadDone ∈ s.tasks → s.cache = env.loadResult
  waitCache : s.loading = false → TaskPc.wait ∈ s.tasks → s.cache = env.loadResult
  noPath : env.pathExists = false →
    s.loading = false ∧ s.cache = none ∧
      ∀ t ∈ s.tasks, t = TaskPc.start ∨ t = TaskPc.done none
  doneExpected : ∀ r, TaskPc.done r ∈ s.tasks → r = expected env
  attemptsInv : ∀ c, env.loadResult = some c →
    s.attempts ≤ 1 ∧ (s.attempts = 1 → s.loading = true ∨ s.cache = some c)

end SingleFlight

/-- With tool_use on every turn, the loop spends all its fuel, returns the
stuck message, and calls the model once per unit of fuel. -/
theorem askClaudeLoop_all_tool_use (oracle : List DiscordBot.Message → DiscordBot.Response)
    (env : Nat → Nat → DiscordBot.NetOutcome)
    (h : ∀ ms, (oracle ms).stop_reason = "tool_use") :
    ∀ (fuel iter : Nat) (ms : List DiscordBot.Message),
      DiscordBot.askClaudeLoop oracle env iter fuel ms =
        "I got stuck in a loop trying to answer. Please try rephrasing your question."
      ∧ DiscordBot.askClaudeLoopCalls oracle env iter fuel ms = fuel := by
  intro fuel
  induction fuel with
  | zero => intro iter ms; exact ⟨rfl, rfl⟩
  | succ n ih =>
    intro iter ms
    constructor
    · simp only [DiscordBot.askClaudeLoop, h ms, if_true]
      exact (ih _ _).1
    · simp only [DiscordBot.askClaudeLoopCalls, h ms, if_true]
      rw [(ih _ _).2]
      omega

/-- C1: for every model behavior that requests tool use on every turn, the
ask_claude loop performs exactly max_iterations AwaitingModel steps and then
stops, returning the fixed fallback text — it never iterates beyond the
configured ceiling. -/
theorem c1_loop_exhausts_to_fallback (oracle : List DiscordBot.Message → DiscordBot.Response)
    (env : Nat → Nat → DiscordBot.NetOutcome) (u : String)
    (h : ∀ ms, (oracle ms).stop_reason = "tool_use") :
    DiscordBot.ask_claude oracle env u =
      "I got stuck in a loop trying to answer. Please try rephrasing your question."
    ∧ DiscordBot.ask_claude_model_calls oracle env u = DiscordBot.max_iterations :=
  ⟨(askClaudeLoop_all_tool_use oracle env h _ _ _).1,
   (askClaudeLoop_all_tool_use oracle env h _ _ _).2⟩

/-- Witness for C1 at a concrete always-tool-use oracle. -/
theorem c1_loop_exhausts_to_fallback_witness :
    DiscordBot.ask_claude (fun _ => ⟨"tool_use", []⟩) (fun _ _ => DiscordBot.envDefault) "hi" =
      "I got stuck in a loop trying to answer. Please try rephrasing your question."
    ∧ DiscordBot.ask_claude_model_calls (fun _ => ⟨"tool_use", []⟩)
        (fun _ _ => DiscordBot.envDefault) "hi" = DiscordBot.max_iterations :=
  c1_loop_exhausts_to_fallback _ _ _ (fun _ => rfl)

/-- The per-turn executor answers every tool_use block with its id. -/
theorem executeTurnAux_ids (env : Nat → DiscordBot.NetOutcome) :
    ∀ (blocks : List DiscordBot.ContentBlock) (k : Nat),
      (DiscordBot.executeTurnAux env k blocks).map (fun d => DiscordBot.dictGet d "tool_use_id")
        = (DiscordBot.toolUseIds blocks).map some := by
  intro blocks
  induction blocks with
  | nil => intro k; rfl
  | cons b rest ih =>
    intro k
    cases b with
    | toolUse id call =>
      simpa [DiscordBot.executeTurnAux, DiscordBot.toolUseIds, DiscordBot.mkToolResult,
        DiscordBot.dictGet] using ih (k + 1)
    | text s => simpa [DiscordBot.executeTurnAux, DiscordBot.toolUseIds] using ih k
    | thinking s => simpa [DiscordBot.executeTurnAux, DiscordBot.toolUseIds] using ih k

/-- The per-turn executor yields exactly one result per tool_use block. -/
theorem executeTurnAux_length (env : Nat → DiscordBot.NetOutcome) :
    ∀ (blocks : List DiscordBot.ContentBlock) (k : Nat),
      (DiscordBot.executeTurnAux env k blocks).length = (DiscordBot.toolUseIds blocks).length := by
  intro blocks
  induction blocks with
  | nil => intro k; rfl
  | cons b rest ih =>
    intro k
    cases b with
    | toolUse id call =>
      simpa [DiscordBot.executeTurnAux, DiscordBot.toolUseIds] using ih (k + 1)
    | text s => simpa [DiscordBot.executeTurnAux, DiscordBot.toolUseIds] using ih k
    | thinking s => simpa [DiscordBot.executeTurnAux, DiscordBot.toolUseIds] using ih k

/-- Every result dict the executor builds has exactly the three keys the
source writes: type, tool_use_id and content. -/
theorem executeTurnAux_keys (env : Nat → DiscordBot.NetOutcome) :
    ∀ (blocks : List DiscordBot.ContentBlock) (k : Nat),
      ∀ d ∈ DiscordBot.executeTurnAux env k blocks,
        d.map Prod.fst = ["type", "tool_use_id", "content"] := by
  intro blocks
  induction blocks with
  | nil => intro k d hd; simp [DiscordBot.executeTurnAux] at hd
  | cons b rest ih =>
    intro k d hd
    cases b with
    | toolUse id call =>
      simp only [DiscordBot.executeTurnAux, List.mem_cons] at hd
      rcases hd with h | h
      · subst h; rfl
      · exact ih (k + 1) d h
    | text s => exact ih k d hd
    | thinking s => exact ih k d hd

/-- C2 (amended): a model turn requesting N tool calls yields exactly N
ToolResults, in request order with matching ids, each a dict holding
exactly the keys type, tool_use_id and content (the source attaches no
is_error flag); a failure raised inside a handler's try block is caught
there and surfaces as the error text of the corresponding result, as the
concrete three-call turn with a raising second handler shows — no handler
failure escapes the turn executor. -/
theorem c2_turn_results (env : Nat → DiscordBot.NetOutcome)
    (blocks : List DiscordBot.ContentBlock) :
    (DiscordBot.executeTurnAux env 0 blocks).length = (DiscordBot.toolUseIds blocks).length
    ∧ (DiscordBot.executeTurnAux env 0 blocks).map (fun d => DiscordBot.dictGet d "tool_use_id")
        = (DiscordBot.toolUseIds blocks).map some
    ∧ (∀ d ∈ DiscordBot.executeTurnAux env 0 blocks,
        d.map Prod.fst = ["type", "tool_use_id", "content"])
    ∧ DiscordBot.executeTurnAux DiscordBot.envC2 0 DiscordBot.blocksC2 =
        [DiscordBot.mkToolResult "toolu_1"
           "Found 1 cards (showing 1):\n**Lightning Bolt**  - Instant",
         DiscordBot.mkToolResult "toolu_2" "Error: Connection timeout",
         DiscordBot.mkToolResult "toolu_3"
           "Found 1 cards (showing 1):\n**Lightning Bolt**  - Instant"] :=
  ⟨executeTurnAux_length env blocks 0, executeTurnAux_ids env blocks 0,
   executeTurnAux_keys env blocks 0, by decide⟩

/-- C2 counterexample: in the three-call turn whose second handler raises,
all three results — the failing one included — carry no is_error key at
all; the failure is conveyed only in the content text, so the failing
call's result is not flagged is_error=true as the claimed ToolResult shape
demands. -/
theorem c2_counterexample :
    (DiscordBot.executeTurnAux DiscordBot.envC2 0 DiscordBot.blocksC2).length = 3
    ∧ (DiscordBot.executeTurnAux DiscordBot.envC2 0 DiscordBot.blocksC2).map
        (fun d => DiscordBot.dictGet d "content") =
        [some "Found 1 cards (showing 1):\n**Lightning Bolt**  - Instant",
         some "Error: Connection timeout",
         some "Found 1 cards (showing 1):\n**Lightning Bolt**  - Instant"]
    ∧ (DiscordBot.executeTurnAux DiscordBot.envC2 0 DiscordBot.blocksC2).map
        (fun d => DiscordBot.dictGet d "is_error") = [none, none, none] := by
  decide

/-- C3 (amended): a tool call whose name is not a key of TOOL_FUNCTIONS
resolves to a ToolResult whose content identifies the tool as unknown,
without raising; the result carries no is_error field, the error being
conveyed in the content text alone. -/
theorem c3_unknown_tool (out : DiscordBot.NetOutcome) (id n : String)
    (raw : List (String × String))
    (h : DiscordBot.TOOL_FUNCTIONS.contains n = false) :
    DiscordBot.executeToolContent out (.unregistered n raw) = "Unknown tool: " ++ n
    ∧ DiscordBot.executeTurnAux (fun _ => out) 0
        [.toolUse id (.unregistered n raw)]
      = [DiscordBot.mkToolResult id ("Unknown tool: " ++ n)] := by
  have h1 : DiscordBot.executeToolContent out (.unregistered n raw) = "Unknown tool: " ++ n := by
    unfold DiscordBot.executeToolContent
    simp [DiscordBot.ToolCall.name, DiscordBot.applyTool, h]
  exact ⟨h1, by simp [DiscordBot.executeTurnAux, h1]⟩

/-- Witness for C3 at the concrete unknown_tool call with empty input. -/
theorem c3_unknown_tool_witness :
    DiscordBot.executeToolContent DiscordBot.envDefault (.unregistered "unknown_tool" [])
      = "Unknown tool: " ++ "unknown_tool"
    ∧ DiscordBot.executeTurnAux (fun _ => DiscordBot.envDefault) 0
        [.toolUse "toolu_1" (.unregistered "unknown_tool" [])]
      = [DiscordBot.mkToolResult "toolu_1" ("Unknown tool: " ++ "unknown_tool")] :=
  c3_unknown_tool DiscordBot.envDefault "toolu_1" "unknown_tool" [] (by decide)

/-- C3 counterexample: the result produced for the unknown_tool call has
exactly the keys type, tool_use_id and content — there is no is_error key,
so the claimed is_error=true flag does not exist on the code's ToolResult. -/
theorem c3_counterexample :
    DiscordBot.executeTurnAux (fun _ => DiscordBot.envDefault) 0
        [.toolUse "toolu_1" (.unregistered "unknown_tool" [])]
      = [[("type", "tool_result"), ("tool_use_id", "toolu_1"),
          ("content", "Unknown tool: unknown_tool")]]
    ∧ DiscordBot.dictGet
        (DiscordBot.mkToolResult "toolu_1" "Unknown tool: unknown_tool") "is_error" = none := by
  decide

/-- Final-text extraction returns the fixed fallback when no block has a
text attribute. -/
theorem extractText_of_no_text : ∀ (content : List DiscordBot.ContentBlock),
    (∀ b ∈ content, b.hasText = false) →
    DiscordBot.extractText content = "I couldn't generate a response."
  | [], _ => rfl
  | b :: rest, h => by
    cases b with
    | text s =>
      have := h (DiscordBot.ContentBlock.text s) (by simp)
      simp [DiscordBot.ContentBlock.hasText] at this
    | toolUse id call =>
      exact extractText_of_no_text rest (fun b hb => h b (by simp [hb]))
    | thinking s =>
      exact extractText_of_no_text rest (fun b hb => h b (by simp [hb]))

/-- C10 (amended): whenever the model's response is final (stop reason not
tool_use) and contains no content block with a text attribute, the loop
returns the fixed string "I couldn't generate a response." rather than an
empty result or an exception; when a text block is present its text is
returned verbatim, so the Done result is non-empty only when that block's
text is. -/
theorem c10_no_text_fallback (oracle : List DiscordBot.Message → DiscordBot.Response)
    (env : Nat → Nat → DiscordBot.NetOutcome) (iter fuel : Nat)
    (ms : List DiscordBot.Message)
    (h1 : ¬ (oracle ms).stop_reason = "tool_use")
    (h2 : ∀ b ∈ (oracle ms).content, b.hasText = false) :
    DiscordBot.askClaudeLoop oracle env iter (fuel + 1) ms = "I couldn't generate a response." := by
  simp only [DiscordBot.askClaudeLoop, if_neg h1]
  exact extractText_of_no_text _ h2

/-- Witness for C10 at a concrete final response with a textless block. -/
theorem c10_no_text_fallback_witness :
    DiscordBot.askClaudeLoop (fun _ => ⟨"end_turn", [DiscordBot.ContentBlock.thinking "x"]⟩)
      (fun _ _ => DiscordBot.envDefault) 0 12 [DiscordBot.Message.user "q"]
      = "I couldn't generate a response." :=
  c10_no_text_fallback _ _ 0 11 _ (by decide) (by decide)

/-- C10 counterexample: a final response whose only block is a text block
holding the empty string makes ask_claude return the empty string — the
loop's Done-case result is not always non-empty. -/
theorem c10_counterexample :
    DiscordBot.ask_claude (fun _ => ⟨"end_turn", [DiscordBot.ContentBlock.text ""]⟩)
      (fun _ _ => DiscordBot.envDefault) "q" = "" := by
  decide

/-- C8: when no persisted rules index exists — the database path is absent
or loading the collection raises — the MCP rules-search tool returns the
explanatory database-not-found text, and the discord rules-search handler,
whose accessor yields no collection in that environment, returns its
not-available text; neither propagates an exception. -/
theorem c8_rules_search_unavailable (pe : Bool) (lr : Except PyExc Nat)
    (qres : Except PyExc MtgMcp.McpQueryData) (q : String) (n : Nat)
    (env : SingleFlight.Env) (qres2 : Except PyExc DiscordBot.QueryData)
    (q2 : String) (n2 : Nat)
    (h1 : pe = false ∨ ∃ e, lr = Except.error e)
    (h2 : env.pathExists = false ∨ env.loadResult = none) :
    MtgMcp.mtg_rules_search (MtgMcp.get_rules_collection none pe lr).1 qres q n
      = "**Rules database not found.**\n\nTo use this tool, you need to run the ingestion script first:\n```\npython rules_ingestion.py\n```\nThis will download the Comprehensive Rules and create the search index."
    ∧ DiscordBot.mtg_rules_search (SingleFlight.expected env) qres2 q2 n2
      = "Rules database not available. Run rules_ingestion.py to set it up." := by
  constructor
  · have hc : (MtgMcp.get_rules_collection none pe lr).1 = none := by
      rcases h1 with h | ⟨e, he⟩
      · subst h; rfl
      · subst he; cases pe <;> rfl
    rw [hc]
    rfl
  · have he : SingleFlight.expected env = none := by
      rcases h2 with h | h
      · unfold SingleFlight.expected; rw [h]; rfl
      · unfold SingleFlight.expected; rw [h]; cases env.pathExists <;> rfl
    rw [he]
    rfl

/-- Witness for C8 at the concrete missing-database environment. -/
theorem c8_rules_search_unavailable_witness :
    MtgMcp.mtg_rules_search (MtgMcp.get_rules_collection none false (Except.ok 0)).1
        (Except.ok ⟨[], [], []⟩) "q" 5
      = "**Rules database not found.**\n\nTo use this tool, you need to run the ingestion script first:\n```\npython rules_ingestion.py\n```\nThis will download the Comprehensive Rules and create the search index."
    ∧ DiscordBot.mtg_rules_search (SingleFlight.expected ⟨false, none⟩)
        (Except.ok ⟨[], []⟩) "q" 5
      = "Rules database not available. Run rules_ingestion.py to set it up." :=
  c8_rules_search_unavailable false (Except.ok 0) (Except.ok ⟨[], [], []⟩) "q" 5
    ⟨false, none⟩ (Except.ok ⟨[], []⟩) "q" 5 (Or.inl rfl) (Or.inl rfl)

/-- Arithmetic helper: the batched add loop of create_database covers all
documents by its last batch. -/
theorem le_hundred_mul_div (L : Nat) : L ≤ 100 * ((L + 99) / 100) := by
  by_contra hlt
  push_neg at hlt
  set q := (L + 99) / 100 with hq
  have h2 : (q + 1) * 100 ≤ L + 99 := by omega
  have h3 : q + 1 ≤ (L + 99) / 100 := (Nat.le_div_iff_mul_le (by norm_num)).mpr h2
  omega

/-- C4 (amended): create_database is not atomic. It deletes any existing
collection first — the state right after the first operation holds no
collection at all — then creates an empty collection and inserts the new
documents in batches of 100, so the full new set is present only from the
final batch onward; the last state holds exactly the new documents. -/
theorem c4_delete_first_then_insert (docs : List String) (start : Option (List String)) :
    (RulesIngestion.create_database_states docs start).head? = some start
    ∧ (RulesIngestion.create_database_states docs start).get? 1 = some none
    ∧ (RulesIngestion.create_database_states docs start).getLast? = some (some docs) := by
  refine ⟨rfl, rfl, ?_⟩
  cases hn : (docs.length + 99) / 100 with
  | zero =>
    have hlen : docs.length = 0 := by
      have := (Nat.div_eq_zero_iff (by norm_num : 0 < 100)).mp hn
      omega
    have hdocs : docs = [] := List.length_eq_zero.mp hlen
    subst hdocs
    simp [RulesIngestion.create_database_states]
  | succ m =>
    have hsplit : RulesIngestion.create_database_states docs start
        = (start :: none :: some [] ::
            (List.range m).map (fun i => some (docs.take (100 * (i + 1)))))
          ++ [some (docs.take (100 * (m + 1)))] := by
      simp [RulesIngestion.create_database_states, hn, List.range_succ]
    rw [hsplit, List.getLast?_concat]
    have htake : docs.take (100 * (m + 1)) = docs := by
      apply List.take_of_length_le
      have := le_hundred_mul_div docs.length
      rw [hn] at this
      omega
    rw [htake]

/-- C4 counterexample: with an existing collection holding an old entry
and one new document to write, the claimed discipline — every intermediate
state keeps the old entries until the new set is fully written — fails: the
state right after deletion holds neither. -/
theorem c4_counterexample :
    ¬ (∀ s ∈ RulesIngestion.create_database_states ["new rule text"] (some ["old rule text"]),
        "old rule text" ∈ RulesIngestion.stateDocs s
        ∨ ∀ d ∈ ["new rule text"], d ∈ RulesIngestion.stateDocs s) := by
  decide

/-- C6 (amended): parse_rules is deterministic and pure — parsing the same
raw text twice yields the identical chunk sequence. The whitespace-change
half of the original claim does not hold; see the counterexample. -/
theorem c6_parse_deterministic (content : String) :
    RulesIngestion.parse_rules content = RulesIngestion.parse_rules content := rfl

/-- C6 counterexample: replacing the space before "100.1" with a newline
is a whitespace-only modification (the non-whitespace character sequences
agree), yet it changes the rule_number set from empty to containing
100.1, because the rule marker anchors at line starts. -/
theorem c6_counterexample :
    ("aaa\n100.1 bbbbbbbbbbbbbbbbbbbbbbbbb".data.filter (fun c => !(pyIsSpace c))
      = "aaa 100.1 bbbbbbbbbbbbbbbbbbbbbbbbb".data.filter (fun c => !(pyIsSpace c)))
    ∧ (RulesIngestion.parse_rules "aaa\n100.1 bbbbbbbbbbbbbbbbbbbbbbbbb").map
        RulesIngestion.Chunk.rule_number = ["100.1"]
    ∧ (RulesIngestion.parse_rules "aaa 100.1 bbbbbbbbbbbbbbbbbbbbbbbbb").map
        RulesIngestion.Chunk.rule_number = [] := by
  decide

/-- The rule-chunk loop equals the filter of entries whose stripped,
collapsed text reaches the 20-character threshold, mapped through the
chunk construction. -/
theorem buildRuleChunks_eq_filter (headers : List (String × String)) :
    ∀ entries : List (String × String),
      RulesIngestion.buildRuleChunks headers entries
        = (entries.filter (fun e =>
            decide (20 ≤ (RulesIngestion.collapseWs (pyStrip e.2)).length))).map
            (RulesIngestion.mkRuleChunk headers)
  | [] => rfl
  | (rn, raw) :: rest => by
    by_cases h : (RulesIngestion.collapseWs (pyStrip raw)).length < 20
    · have hd : decide (20 ≤ (RulesIngestion.collapseWs (pyStrip raw)).length) = false := by
        simpa using Nat.not_le.mpr h
      simp [RulesIngestion.buildRuleChunks, List.filter_cons, h, hd,
        buildRuleChunks_eq_filter headers rest]
    · have hd : decide (20 ≤ (RulesIngestion.collapseWs (pyStrip raw)).length) = true := by
        simpa using Nat.le_of_not_lt h
      simp [RulesIngestion.buildRuleChunks, List.filter_cons, h, hd,
        buildRuleChunks_eq_filter headers rest, RulesIngestion.mkRuleChunk]

/-- The glossary-chunk loop equals the filter of entries that survive the
skip condition, mapped through the glossary chunk construction. -/
theorem buildGlossaryChunks_eq_filter :
    ∀ entries : List (String × String),
      RulesIngestion.buildGlossaryChunks entries
        = (entries.filter (fun e =>
            !(decide ((RulesIngestion.collapseWs (pyStrip e.2)).length < 20)
              || (pyStrip e.1 == "Glossary") || (pyStrip e.1 == "Credits")))).map
            RulesIngestion.mkGlossaryChunk
  | [] => rfl
  | (t, d) :: rest => by
    rw [List.filter_cons]
    cases hcond : (decide ((RulesIngestion.collapseWs (pyStrip d)).length < 20)
        || (pyStrip t == "Glossary") || (pyStrip t == "Credits")) with
    | true =>
      rw [RulesIngestion.buildGlossaryChunks]
      simp only [hcond, Bool.not_true, Bool.false_eq_true, if_false, ite_false]
      exact buildGlossaryChunks_eq_filter rest
    | false =>
      rw [RulesIngestion.buildGlossaryChunks]
      simp only [hcond, Bool.not_false, if_true, ite_true, Bool.true_eq_false]
      rw [buildGlossaryChunks_eq_filter rest]
      rfl

/-- C7: a matched rule entry yields a chunk exactly when its stripped,
whitespace-collapsed text reaches the 20-character minimum, and a matched
glossary entry yields one exactly when its collapsed definition reaches
the same minimum and its stripped term is neither Glossary nor Credits:
parse_rules is precisely the concatenation of the two filtered maps over
the matched entries. -/
theorem c7_threshold_filter (content : String) :
    RulesIngestion.parse_rules content
      = ((RulesIngestion.ruleEntries content).filter (fun e =>
            decide (20 ≤ (RulesIngestion.collapseWs (pyStrip e.2)).length))).map
          (RulesIngestion.mkRuleChunk (RulesIngestion.sectionHeadersOf content))
        ++ ((RulesIngestion.glossaryEntries content).filter (fun e =>
            !(decide ((RulesIngestion.collapseWs (pyStrip e.2)).length < 20)
              || (pyStrip e.1 == "Glossary") || (pyStrip e.1 == "Credits")))).map
          RulesIngestion.mkGlossaryChunk := by
  unfold RulesIngestion.parse_rules
  rw [buildRuleChunks_eq_filter, buildGlossaryChunks_eq_filter]

/-- A string with a suffix of positive length is non-empty. -/
theorem append_ne_empty_of_pos {a b : String} (h : 1 ≤ b.length) : a ++ b ≠ "" := by
  intro hab
  have hl := congrArg String.length hab
  rw [String.length_append] at hl
  have h0 : ("" : String).length = 0 := rfl
  omega

/-- A string of length at least 20 is non-empty. -/
theorem ne_empty_of_twenty {s : String} (h : 20 ≤ s.length) : s ≠ "" := by
  intro habs
  rw [habs] at h
  exact absurd h (by decide)

/-- Every section key matchHeader returns has exactly three characters. -/
theorem matchHeader_key_length (l : List Char) (p : String × String × List Char)
    (h : RulesIngestion.matchHeader l = some p) : p.1.length = 3 := by
  match l with
  | [] => exact Option.noConfusion h
  | [a] => exact Option.noConfusion h
  | [a, b] => exact Option.noConfusion h
  | [a, b, c] => exact Option.noConfusion h
  | d1 :: d2 :: d3 :: c4 :: rest =>
    rw [RulesIngestion.matchHeader] at h
    dsimp only at h
    repeat' split at h
    all_goals try exact Option.noConfusion h
    injection h with h1
    subst h1
    rfl

/-- Every key of the header scan has exactly three characters. -/
theorem findHeadersF_key_length : ∀ (fuel : Nat) (l : List Char) (b : Bool)
    (p : String × String), p ∈ RulesIngestion.findHeadersF fuel l b → p.1.length = 3 := by
  intro fuel
  induction fuel with
  | zero => intro l b p hp; simp [RulesIngestion.findHeadersF] at hp
  | succ n ih =>
    intro l b p hp
    match l with
    | [] => simp [RulesIngestion.findHeadersF] at hp
    | c :: rest =>
      rw [RulesIngestion.findHeadersF] at hp
      split at hp
      · split at hp
        next num title rem heq =>
          rcases List.mem_cons.mp hp with h | h
          · subst h
            exact matchHeader_key_length _ _ heq
          · exact ih _ _ _ h
        next => exact ih _ _ _ hp
      · exact ih _ _ _ hp

/-- No header key can equal the glossary section key. -/
theorem sectionTitle_glossary (content : String) :
    RulesIngestion.sectionTitle content "glossary" = "" := by
  unfold RulesIngestion.sectionTitle RulesIngestion.sectionHeadersGet
  have hf : (RulesIngestion.sectionHeadersOf content).reverse.find?
      (fun p => p.1 == "glossary") = none := by
    apply List.find?_eq_none.mpr
    intro p hp
    have hp' : p ∈ RulesIngestion.sectionHeadersOf content := List.mem_reverse.mp hp
    obtain ⟨q, hq, rfl⟩ := List.mem_map.mp hp'
    have h3 : q.1.length = 3 := findHeadersF_key_length _ _ _ q hq
    simp only [beq_iff_eq]
    intro heq
    rw [heq] at h3
    have h8 : ("glossary" : String).length = 8 := rfl
    omega
  rw [hf]
  rfl

/-- Text of a rule chunk, written through the header lookup on the chunk's
own section key. -/
theorem mkRuleChunk_text (headers : List (String × String)) (e : String × String) :
    (RulesIngestion.mkRuleChunk headers e).text
      = (if (RulesIngestion.sectionHeadersGet headers
            (RulesIngestion.mkRuleChunk headers e).«section»).getD "" ≠ ""
         then (RulesIngestion.sectionHeadersGet headers
            (RulesIngestion.mkRuleChunk headers e).«section»).getD ""
           ++ " (" ++ (RulesIngestion.mkRuleChunk headers e).«section» ++ "): "
           ++ RulesIngestion.collapseWs (pyStrip e.2)
         else RulesIngestion.collapseWs (pyStrip e.2)) := rfl

/-- C5 (amended): every chunk parse_rules produces has non-empty text,
and whenever a section header with a non-empty title was found for the
chunk's section key, the chunk's text begins with that title followed by
the section number in the form Title (number): body. The rule_number
uniqueness half of the original claim does not hold for every raw text;
see the counterexample. -/
theorem c5_chunk_invariants (content : String) (c : RulesIngestion.Chunk)
    (hc : c ∈ RulesIngestion.parse_rules content) :
    c.text ≠ ""
    ∧ (RulesIngestion.sectionTitle content c.«section» ≠ "" →
        ∃ r, c.text = RulesIngestion.sectionTitle content c.«section»
          ++ " (" ++ c.«section» ++ "): " ++ r) := by
  unfold RulesIngestion.parse_rules at hc
  rw [buildRuleChunks_eq_filter, buildGlossaryChunks_eq_filter] at hc
  rcases List.mem_append.mp hc with h | h
  · obtain ⟨e, he, rfl⟩ := List.mem_map.mp h
    have hlen : 20 ≤ (RulesIngestion.collapseWs (pyStrip e.2)).length :=
      of_decide_eq_true (List.mem_filter.mp he).2
    have hst : RulesIngestion.sectionTitle content
        (RulesIngestion.mkRuleChunk (RulesIngestion.sectionHeadersOf content) e).«section»
      = (RulesIngestion.sectionHeadersGet (RulesIngestion.sectionHeadersOf content)
          (RulesIngestion.mkRuleChunk (RulesIngestion.sectionHeadersOf content) e).«section»).getD
          "" := rfl
    by_cases hsn : (RulesIngestion.sectionHeadersGet (RulesIngestion.sectionHeadersOf content)
        (RulesIngestion.mkRuleChunk (RulesIngestion.sectionHeadersOf content) e).«section»).getD ""
        = ""
    · have htext : (RulesIngestion.mkRuleChunk (RulesIngestion.sectionHeadersOf content) e).text
          = RulesIngestion.collapseWs (pyStrip e.2) := by
        rw [mkRuleChunk_text, if_neg (fun hne => hne hsn)]
      refine ⟨?_, ?_⟩
      · rw [htext]; exact ne_empty_of_twenty hlen
      · intro ht
        rw [hst] at ht
        exact absurd hsn ht
    · have htext : (RulesIngestion.mkRuleChunk (RulesIngestion.sectionHeadersOf content) e).text
          = (RulesIngestion.sectionHeadersGet (RulesIngestion.sectionHeadersOf content)
              (RulesIngestion.mkRuleChunk (RulesIngestion.sectionHeadersOf content) e).«section»).getD ""
            ++ " (" ++ (RulesIngestion.mkRuleChunk (RulesIngestion.sectionHeadersOf content) e).«section»
            ++ "): " ++ RulesIngestion.collapseWs (pyStrip e.2) := by
        rw [mkRuleChunk_text, if_pos hsn]
      refine ⟨?_, ?_⟩
      · rw [htext]
        exact append_ne_empty_of_pos (by omega)
      · intro ht
        refine ⟨RulesIngestion.collapseWs (pyStrip e.2), ?_⟩
        rw [htext, hst]
  · obtain ⟨e, he, rfl⟩ := List.mem_map.mp h
    have hcond := (List.mem_filter.mp he).2
    have hlen : 20 ≤ (RulesIngestion.collapseWs (pyStrip e.2)).length := by
      simp only [Bool.not_eq_true', Bool.or_eq_false_iff, decide_eq_false_iff_not,
        Nat.not_lt] at hcond
      exact hcond.1.1
    have htext : (RulesIngestion.mkGlossaryChunk e).text
        = pyStrip e.1 ++ ": " ++ RulesIngestion.collapseWs (pyStrip e.2) := rfl
    have hsec : (RulesIngestion.mkGlossaryChunk e).«section» = "glossary" := rfl
    refine ⟨?_, ?_⟩
    · rw [htext]
      exact append_ne_empty_of_pos (by omega)
    · intro ht
      rw [hsec] at ht
      exact absurd (sectionTitle_glossary content) ht

/-- Reading the freshly overwritten slot yields the new value. -/
theorem set_getElem_self_eq {l : List SingleFlight.TaskPc} {i : Nat}
    {b x : SingleFlight.TaskPc} (hp : (l.set i b)[i]? = some x) : x = b := by
  rcases Nat.lt_or_ge i l.length with hlen | hlen
  · rw [List.getElem?_set_self hlen] at hp
    injection hp with h1
    exact h1.symm
  · rw [List.getElem?_eq_none (by simpa using hlen)] at hp
    exact Option.noConfusion hp

/-- Overwriting a slot with a non-region value leaves region occupants at
their old positions. -/
theorem getElem_set_region_old {tasks : List SingleFlight.TaskPc} {i p : Nat}
    {b tp : SingleFlight.TaskPc} (hb : SingleFlight.inRegion b = false)
    (hp : (tasks.set i b)[p]? = some tp) (hrp : SingleFlight.inRegion tp = true) :
    tasks[p]? = some tp := by
  rcases eq_or_ne i p with rfl | hne
  · rw [set_getElem_self_eq hp] at hrp
    rw [hb] at hrp
    exact Bool.noConfusion hrp
  · rwa [List.getElem?_set_ne hne] at hp

/-- Region uniqueness is preserved by overwriting any slot with a
non-region value. -/
theorem regionUnique_set_nonregion {tasks : List SingleFlight.TaskPc} {i : Nat}
    {b : SingleFlight.TaskPc} (hb : SingleFlight.inRegion b = false)
    (hU : ∀ (p q : Nat) (tp tq : SingleFlight.TaskPc), tasks[p]? = some tp →
      tasks[q]? = some tq → SingleFlight.inRegion tp = true →
      SingleFlight.inRegion tq = true → p = q) :
    ∀ (p q : Nat) (tp tq : SingleFlight.TaskPc), (tasks.set i b)[p]? = some tp →
      (tasks.set i b)[q]? = some tq → SingleFlight.inRegion tp = true →
      SingleFlight.inRegion tq = true → p = q := by
  intro p q tp tq hp hq hrp hrq
  exact hU p q tp tq (getElem_set_region_old hb hp hrp)
    (getElem_set_region_old hb hq hrq) hrp hrq

/-- Region uniqueness is preserved by overwriting the slot that already
holds the unique region occupant. -/
theorem regionUnique_set_region {tasks : List SingleFlight.TaskPc} {i : Nat}
    {pcOld b : SingleFlight.TaskPc} (hi : tasks[i]? = some pcOld)
    (hOld : SingleFlight.inRegion pcOld = true)
    (hU : ∀ (p q : Nat) (tp tq : SingleFlight.TaskPc), tasks[p]? = some tp →
      tasks[q]? = some tq → SingleFlight.inRegion tp = true →
      SingleFlight.inRegion tq = true → p = q) :
    ∀ (p q : Nat) (tp tq : SingleFlight.TaskPc), (tasks.set i b)[p]? = some tp →
      (tasks.set i b)[q]? = some tq → SingleFlight.inRegion tp = true →
      SingleFlight.inRegion tq = true → p = q := by
  have key : ∀ (r : Nat) (tr : SingleFlight.TaskPc), (tasks.set i b)[r]? = some tr →
      SingleFlight.inRegion tr = true → r = i := by
    intro r tr hr hrr
    by_contra hne
    rw [List.getElem?_set_ne (fun h => hne h.symm)] at hr
    exact hne (hU r i tr pcOld hr hi hrr hOld)
  intro p q tp tq hp hq hrp hrq
  rw [key p tp hp hrp, key q tq hq hrq]

/-- After a load start in a region-free task list, the started slot is the
only possible region occupant. -/
theorem regionUnique_after_start {tasks : List SingleFlight.TaskPc} {i : Nat}
    {b : SingleFlight.TaskPc}
    (hnone : ∀ (p : Nat) (t : SingleFlight.TaskPc), tasks[p]? = some t →
      SingleFlight.inRegion t = false) :
    ∀ (p q : Nat) (tp tq : SingleFlight.TaskPc), (tasks.set i b)[p]? = some tp →
      (tasks.set i b)[q]? = some tq → SingleFlight.inRegion tp = true →
      SingleFlight.inRegion tq = true → p = q := by
  have key : ∀ (r : Nat) (tr : SingleFlight.TaskPc), (tasks.set i b)[r]? = some tr →
      SingleFlight.inRegion tr = true → r = i := by
    intro r tr hr hrr
    by_contra hne
    rw [List.getElem?_set_ne (fun h => hne h.symm)] at hr
    rw [hnone r tr hr] at hrr
    exact Bool.noConfusion hrr
  intro p q tp tq hp hq hrp hrq
  rw [key p tp hp hrp, key q tq hq hrq]

/-- The region-free property is preserved by overwriting a slot with a
non-region value. -/
theorem regionLoading_set {tasks : List SingleFlight.TaskPc} {i : Nat}
    {b : SingleFlight.TaskPc} (hb : SingleFlight.inRegion b = false)
    (h : ∀ (p : Nat) (t : SingleFlight.TaskPc), tasks[p]? = some t →
      SingleFlight.inRegion t = false) :
    ∀ (p : Nat) (t : SingleFlight.TaskPc), (tasks.set i b)[p]? = some t →
      SingleFlight.inRegion t = false := by
  intro p t hp
  rcases eq_or_ne i p with rfl | hne
  · rw [set_getElem_self_eq hp]
    exact hb
  · rw [List.getElem?_set_ne hne] at hp
    exact h p t hp

/-- The invariant holds in every initial state. -/
theorem inv_init (env : SingleFlight.Env) (n : Nat) :
    SingleFlight.Inv env (SingleFlight.initState n) := by
  constructor
  · intro _ p t hp
    simp only [SingleFlight.initState, List.getElem?_replicate] at hp
    split at hp
    · injection hp with h1
      subst h1
      rfl
    · exact Option.noConfusion hp
  · intro p q tp tq hp hq hrp hrq
    simp only [SingleFlight.initState, List.getElem?_replicate] at hp
    split at hp
    · injection hp with h1
      subst h1
      exact Bool.noConfusion hrp
    · exact Option.noConfusion hp
  · exact Or.inl rfl
  · intro hm
    exact absurd (List.eq_of_mem_replicate hm) (by simp)
  · intro _ hm
    exact absurd (List.eq_of_mem_replicate hm) (by simp)
  · intro _
    exact ⟨rfl, rfl, fun t hm => Or.inl (List.eq_of_mem_replicate hm)⟩
  · intro r hm
    exact absurd (List.eq_of_mem_replicate hm) (by simp)
  · intro c _
    refine ⟨by simp [SingleFlight.initState], ?_⟩
    intro h
    simp [SingleFlight.initState] at h

/-- The invariant is preserved by every scheduler step. -/
theorem inv_step {env : SingleFlight.Env} {s s' : SingleFlight.GState}
    (hInv : SingleFlight.Inv env s) (hstep : SingleFlight.Step env s s') :
    SingleFlight.Inv env s' := by
  obtain ⟨hRL, hRU, hCI, hLD, hWC, hNP, hDE, hAI⟩ := hInv
  cases hstep with
  | startCached i c hi hc =>
    have hlr : env.loadResult = some c := by
      rcases hCI with h | h
      · rw [hc] at h; exact Option.noConfusion h
      · rw [hc] at h; exact h.symm
    have hpe : env.pathExists = true := by
      cases hpq : env.pathExists
      · have := (hNP hpq).2.1
        rw [hc] at this
        exact Option.noConfusion this
      · rfl
    constructor
    · intro hl
      exact regionLoading_set rfl (hRL hl)
    · exact regionUnique_set_nonregion rfl hRU
    · exact hCI
    · intro hm
      rcases List.mem_or_eq_of_mem_set hm with hm | hm
      · exact hLD hm
      · exact SingleFlight.TaskPc.noConfusion hm
    · intro hl hm
      rcases List.mem_or_eq_of_mem_set hm with hm | hm
      · exact hWC hl hm
      · exact SingleFlight.TaskPc.noConfusion hm
    · intro hp0
      rw [hp0] at hpe
      exact Bool.noConfusion hpe
    · intro r hm
      rcases List.mem_or_eq_of_mem_set hm with hm | hm
      · exact hDE r hm
      · injection hm with h1
        subst h1
        simp [SingleFlight.expected, hpe, hlr]
    · exact hAI
  | startNoPath i hi hc hp0 =>
    constructor
    · intro hl
      exact regionLoading_set rfl (hRL hl)
    · exact regionUnique_set_nonregion rfl hRU
    · exact hCI
    · intro hm
      rcases List.mem_or_eq_of_mem_set hm with hm | hm
      · exact hLD hm
      · exact SingleFlight.TaskPc.noConfusion hm
    · intro hl hm
      rcases List.mem_or_eq_of_mem_set hm with hm | hm
      · exact hWC hl hm
      · exact SingleFlight.TaskPc.noConfusion hm
    · intro hq
      obtain ⟨h1, h2, h3⟩ := hNP hq
      refine ⟨h1, h2, ?_⟩
      intro t hm
      rcases List.mem_or_eq_of_mem_set hm with hm | hm
      · exact h3 t hm
      · exact Or.inr hm
    · intro r hm
      rcases List.mem_or_eq_of_mem_set hm with hm | hm
      · exact hDE r hm
      · injection hm with h1
        subst h1
        simp [SingleFlight.expected, hp0]
    · exact hAI
  | startWait i hi hc hpe hl =>
    constructor
    · intro hlf
      rw [hl] at hlf
      exact Bool.noConfusion hlf
    · exact regionUnique_set_nonregion rfl hRU
    · exact hCI
    · intro hm
      rcases List.mem_or_eq_of_mem_set hm with hm | hm
      · exact hLD hm
      · exact SingleFlight.TaskPc.noConfusion hm
    · intro hlf
      rw [hl] at hlf
      exact Bool.noConfusion hlf
    · intro hq
      rw [hq] at hpe
      exact Bool.noConfusion hpe
    · intro r hm
      rcases List.mem_or_eq_of_mem_set hm with hm | hm
      · exact hDE r hm
      · exact SingleFlight.TaskPc.noConfusion hm
    · intro c0 hlrc
      refine ⟨(hAI c0 hlrc).1, ?_⟩
      intro _
      exact Or.inl hl
  | startLoad i hi hc hpe hl =>
    constructor
    · intro hlf
      exact Bool.noConfusion hlf
    · exact regionUnique_after_start (hRL hl)
    · exact hCI
    · intro hm
      rcases List.mem_or_eq_of_mem_set hm with hm | hm
      · obtain ⟨p, hp⟩ := List.mem_iff_getElem?.mp hm
        exact absurd (hRL hl p _ hp) (by simp [SingleFlight.inRegion])
      · exact SingleFlight.TaskPc.noConfusion hm
    · intro hlf
      exact Bool.noConfusion hlf
    · intro hq
      rw [hq] at hpe
      exact Bool.noConfusion hpe
    · intro r hm
      rcases List.mem_or_eq_of_mem_set hm with hm | hm
      · exact hDE r hm
      · exact SingleFlight.TaskPc.noConfusion hm
    · intro c0 hlrc
      obtain ⟨ha1, ha2⟩ := hAI c0 hlrc
      have h0 : s.attempts = 0 := by
        rcases Nat.lt_or_ge s.attempts 1 with h | h
        · omega
        · have h1 : s.attempts = 1 := by omega
          exfalso
          rcases ha2 h1 with h2 | h2
          · rw [hl] at h2
            exact Bool.noConfusion h2
          · rw [hc] at h2
            exact Option.noConfusion h2
      refine ⟨by show s.attempts + 1 ≤ 1; omega, ?_⟩
      intro _
      exact Or.inl rfl
  | waitSpin i hi hl hc =>
    exact ⟨hRL, hRU, hCI, hLD, hWC, hNP, hDE, hAI⟩
  | waitDone i hi hcond =>
    have hrexp : s.cache = SingleFlight.expected env := by
      rcases hcond with hlf | hcne
      · cases hpq : env.pathExists
        · rw [(hNP hpq).2.1]
          simp [SingleFlight.expected, hpq]
        · rw [hWC hlf (List.mem_iff_getElem?.mpr ⟨i, hi⟩)]
          simp [SingleFlight.expected, hpq]
      · have hcl : s.cache = env.loadResult := by
          rcases hCI with h | h
          · exact absurd h hcne
          · exact h
        cases hpq : env.pathExists
        · exact absurd (hNP hpq).2.1 hcne
        · rw [hcl]
          simp [SingleFlight.expected, hpq]
    constructor
    · intro hl
      exact regionLoading_set rfl (hRL hl)
    · exact regionUnique_set_nonregion rfl hRU
    · exact hCI
    · intro hm
      rcases List.mem_or_eq_of_mem_set hm with hm | hm
      · exact hLD hm
      · exact SingleFlight.TaskPc.noConfusion hm
    · intro hl hm
      rcases List.mem_or_eq_of_mem_set hm with hm | hm
      · exact hWC hl hm
      · exact SingleFlight.TaskPc.noConfusion hm
    · intro hq
      obtain ⟨h1, h2, h3⟩ := hNP hq
      refine ⟨h1, h2, ?_⟩
      intro t hm
      rcases List.mem_or_eq_of_mem_set hm with hm | hm
      · exact h3 t hm
      · rw [h2] at hm
        exact Or.inr hm
    · intro r hm
      rcases List.mem_or_eq_of_mem_set hm with hm | hm
      · exact hDE r hm
      · injection hm with h1
        subst h1
        exact hrexp
    · exact hAI
  | loadComplete i hi =>
    have hltrue : s.loading = true := by
      cases hlq : s.loading
      · exact absurd (hRL hlq i _ hi) (by simp [SingleFlight.inRegion])
      · rfl
    have hc' : (match env.loadResult with
        | some c => some c
        | none => s.cache) = env.loadResult := by
      cases hlr : env.loadResult with
      | some c => rfl
      | none =>
        rcases hCI with h | h
        · exact h
        · rw [hlr] at h
          exact h
    constructor
    · intro hlf
      have hx : s.loading = false := hlf
      rw [hltrue] at hx
      exact Bool.noConfusion hx
    · exact regionUnique_set_region hi rfl hRU
    · exact Or.inr hc'
    · intro _
      exact hc'
    · intro hlf hm
      have hx : s.loading = false := hlf
      rw [hltrue] at hx
      exact Bool.noConfusion hx
    · intro hq
      exact absurd ((hNP hq).2.2 _ (List.mem_iff_getElem?.mpr ⟨i, hi⟩)) (by simp)
    · intro r hm
      rcases List.mem_or_eq_of_mem_set hm with hm | hm
      · exact hDE r hm
      · exact SingleFlight.TaskPc.noConfusion hm
    · intro c0 hlrc
      refine ⟨(hAI c0 hlrc).1, ?_⟩
      intro _
      exact Or.inl hltrue
  | finallyStep i hi =>
    have hcl : s.cache = env.loadResult := hLD (List.mem_iff_getElem?.mpr ⟨i, hi⟩)
    have hpe : env.pathExists = true := by
      cases hpq : env.pathExists
      · exact absurd ((hNP hpq).2.2 _ (List.mem_iff_getElem?.mpr ⟨i, hi⟩)) (by simp)
      · rfl
    have hrexp : s.cache = SingleFlight.expected env := by
      rw [hcl]
      simp [SingleFlight.expected, hpe]
    constructor
    · intro _ p t hp
      rcases eq_or_ne i p with rfl | hne
      · rw [set_getElem_self_eq hp]
        rfl
      · rw [List.getElem?_set_ne hne] at hp
        cases hrt : SingleFlight.inRegion t with
        | false => rfl
        | true => exact absurd (hRU p i t .loadDone hp hi hrt rfl) (fun h => hne h.symm)
    · exact regionUnique_set_nonregion rfl hRU
    · exact hCI
    · intro hm
      rcases List.mem_or_eq_of_mem_set hm with hm | hm
      · exact hLD hm
      · exact SingleFlight.TaskPc.noConfusion hm
    · intro _ hm
      rcases List.mem_or_eq_of_mem_set hm with hm | hm
      · exact hcl
      · exact SingleFlight.TaskPc.noConfusion hm
    · intro hq
      rw [hq] at hpe
      exact Bool.noConfusion hpe
    · intro r hm
      rcases List.mem_or_eq_of_mem_set hm with hm | hm
      · exact hDE r hm
      · injection hm with h1
        subst h1
        exact hrexp
    · intro c0 hlrc
      refine ⟨(hAI c0 hlrc).1, ?_⟩
      intro _
      refine Or.inr ?_
      show s.cache = some c0
      rw [hcl, hlrc]

/-- Every reachable state of the lazy-load machine satisfies the
invariant. -/
theorem reach_inv {env : SingleFlight.Env} {s : SingleFlight.GState}
    (h : SingleFlight.Reach env s) : SingleFlight.Inv env s := by
  induction h with
  | init n => exact inv_init env n
  | step s s' hr hst ih => exact inv_step ih hst

/-- C9: in every reachable state of the concurrent lazy-load machine, at
most one task is performing the underlying load (single-flight: a caller
arriving while a load is in flight waits instead of starting a duplicate),
every completed caller observes the same outcome — the loaded collection
when the path exists and the load succeeds, otherwise the not-available
outcome — and when the load succeeds at most one load attempt is ever
started over the whole history. -/
theorem c9_single_flight (env : SingleFlight.Env) (s : SingleFlight.GState)
    (h : SingleFlight.Reach env s) :
    (∀ (i j : Nat) (ti tj : SingleFlight.TaskPc), s.tasks[i]? = some ti →
      s.tasks[j]? = some tj → SingleFlight.inRegion ti = true →
      SingleFlight.inRegion tj = true → i = j)
    ∧ (∀ r, SingleFlight.TaskPc.done r ∈ s.tasks → r = SingleFlight.expected env)
    ∧ (∀ c, env.loadResult = some c → s.attempts ≤ 1) :=
  ⟨(reach_inv h).regionUnique, (reach_inv h).doneExpected,
   fun c hc => ((reach_inv h).attemptsInv c hc).1⟩

/-- Witness for C9 at a concrete environment and the initial state with
three concurrent callers. -/
theorem c9_single_flight_witness :
    (∀ (i j : Nat) (ti tj : SingleFlight.TaskPc),
      (SingleFlight.initState 3).tasks[i]? = some ti →
      (SingleFlight.initState 3).tasks[j]? = some tj →
      SingleFlight.inRegion ti = true → SingleFlight.inRegion tj = true → i = j)
    ∧ (∀ r, SingleFlight.TaskPc.done r ∈ (SingleFlight.initState 3).tasks →
        r = SingleFlight.expected ⟨true, some 5⟩)
    ∧ (∀ c, (SingleFlight.Env.mk true (some 5)).loadResult = some c →
        (SingleFlight.initState 3).attempts ≤ 1) :=
  c9_single_flight ⟨true, some 5⟩ (SingleFlight.initState 3) (SingleFlight.Reach.init 3)

/-- Witness for C5 at a concrete corpus with one section header and one
rule. -/
theorem c5_chunk_invariants_witness :
    ((⟨"100.1", "General (100): The Magic rules aaaaaaaa bbbb.", "100",
        some "General"⟩ : RulesIngestion.Chunk)
      ∈ RulesIngestion.parse_rules "100. General\n100.1 The Magic rules aaaaaaaa bbbb.\n")
    ∧ ((⟨"100.1", "General (100): The Magic rules aaaaaaaa bbbb.", "100",
        some "General"⟩ : RulesIngestion.Chunk).text ≠ ""
      ∧ (RulesIngestion.sectionTitle "100. General\n100.1 The Magic rules aaaaaaaa bbbb.\n"
            (⟨"100.1", "General (100): The Magic rules aaaaaaaa bbbb.", "100",
              some "General"⟩ : RulesIngestion.Chunk).«section» ≠ "" →
          ∃ r, (⟨"100.1", "General (100): The Magic rules aaaaaaaa bbbb.", "100",
              some "General"⟩ : RulesIngestion.Chunk).text
            = RulesIngestion.sectionTitle "100. General\n100.1 The Magic rules aaaaaaaa bbbb.\n"
                (⟨"100.1", "General (100): The Magic rules aaaaaaaa bbbb.", "100",
                  some "General"⟩ : RulesIngestion.Chunk).«section»
              ++ " (" ++ (⟨"100.1", "General (100): The Magic rules aaaaaaaa bbbb.", "100",
                  some "General"⟩ : RulesIngestion.Chunk).«section» ++ "): " ++ r)) :=
  ⟨by decide, c5_chunk_invariants _ _ (by decide)⟩

/-- C5 counterexample: a raw text in which the same rule number opens two
lines produces two chunks with the same rule_number, so rule_number is not
unique across the returned chunk list for every input. -/
theorem c5_counterexample :
    ((RulesIngestion.parse_rules
        "100.1 aaaaaaaaaaaaaaaaaaaaaaaaa\n100.1 aaaaaaaaaaaaaaaaaaaaaaaaa").map
      RulesIngestion.Chunk.rule_number = ["100.1", "100.1"])
    ∧ ¬ ((RulesIngestion.parse_rules
        "100.1 aaaaaaaaaaaaaaaaaaaaaaaaa\n100.1 aaaaaaaaaaaaaaaaaaaaaaaaa").map
      RulesIngestion.Chunk.rule_number).Nodup := by
  decide
